import Mathlib

/-!
Shallow embedding of `0x02-redis_basic/exercise.py` (class `Cache`) and
`0x02-redis_basic/web.py` (`url_access_count` / `get_page`) from the
repository `alx-backend-storage`, together with proofs of the specified
properties.

Modelling conventions:
* Python byte strings are modelled as Lean `String`s holding their decoded
  text (every byte value handled by this code is ASCII text), so
  `bytes.decode('utf-8')` is the identity.
* A Python value accepted by `Cache.store` is a `PyVal`: text, binary,
  integer or floating point.  Floats are carried by their `repr` string,
  since only their serialized form is ever observable in this code.
* The Redis database is a `RedisState`: a map from keys to entries, where
  an entry holds the raw value string and an optional TTL (`SET ... EX n`
  stores `some n`, a plain `SET` stores and resets to `none`).
* Redis `INCR` raises an error when the present value is not an integer
  string; fallible operations return `Option` (`none` = raised exception).
* `uuid.uuid4()` is modelled by passing the freshly generated key as an
  explicit argument, and the HTTP fetch performed by the undecorated
  `get_page` body is modelled by an `Except String String` argument
  (`Except.error e` = `requests.RequestException` with message `e`).
-/

namespace AlxStorage

/-- A Python scalar value of the kinds `Cache.store` documents:
`str`, `bytes`, `int`, `float` (float carried by its `repr` string). -/
inductive PyVal where
  | str (s : String)
  | bytes (b : String)
  | int (n : Int)
  | float (r : String)
deriving DecidableEq, Repr

deriving instance DecidableEq for Except

/-- Little-endian base-10 digits of a natural number (empty for 0). -/
def natRevDigits (n : Nat) : List Nat :=
  if h : n = 0 then [] else n % 10 :: natRevDigits (n / 10)
decreasing_by exact Nat.div_lt_self (Nat.pos_of_ne_zero h) (by norm_num)

/-- The ASCII character of a decimal digit. -/
def digitChar (d : Nat) : Char := Char.ofNat (48 + d)

/-- Python `str(n)` for a non-negative integer. -/
def pyStrNat (n : Nat) : String :=
  if n = 0 then "0" else String.mk ((natRevDigits n).reverse.map digitChar)

/-- Python `str(n)` for an integer (also how redis serializes counters). -/
def pyStrInt : Int → String
  | Int.ofNat m => pyStrNat m
  | Int.negSucc m => "-" ++ pyStrNat (m + 1)

/-- The value of an ASCII decimal digit character, if it is one. -/
def charDigit (c : Char) : Option Nat :=
  if 48 ≤ c.toNat ∧ c.toNat ≤ 57 then some (c.toNat - 48) else none

/-- Accumulating base-10 parse of a digit string. -/
def parseDigitsAux (acc : Nat) : List Char → Option Nat
  | [] => some acc
  | c :: rest =>
    match charDigit c with
    | some d => parseDigitsAux (10 * acc + d) rest
    | none => none

/-- Base-10 parse of a non-empty digit string. -/
def parseDigits (l : List Char) : Option Nat :=
  match l with
  | [] => none
  | _ :: _ => parseDigitsAux 0 l

/-- Python `int(s)` on a canonical decimal string (optional leading minus
sign followed by digits); `none` models a raised `ValueError`. -/
def pyParseInt (s : String) : Option Int :=
  match s.data with
  | [] => none
  | c :: rest =>
    if c = '-' then (parseDigits rest).map (fun m => -(m : Int))
    else (parseDigits (c :: rest)).map (fun m => (m : Int))

theorem charDigit_digitChar {d : Nat} (h : d < 10) : charDigit (digitChar d) = some d := by
  interval_cases d <;> decide

theorem natRevDigits_zero : natRevDigits 0 = [] := by
  rw [natRevDigits]; rfl

theorem natRevDigits_pos {n : Nat} (h : n ≠ 0) :
    natRevDigits n = n % 10 :: natRevDigits (n / 10) := by
  rw [natRevDigits]; simp [h]

theorem natRevDigits_lt (n : Nat) : ∀ d ∈ natRevDigits n, d < 10 := by
  induction n using Nat.strong_induction_on with
  | _ n ih =>
    by_cases h : n = 0
    · subst h; rw [natRevDigits_zero]; intro d hd; cases hd
    · rw [natRevDigits_pos h]
      intro d hd
      rcases List.mem_cons.mp hd with h1 | h2
      · subst h1; exact Nat.mod_lt _ (by norm_num)
      · exact ih (n / 10) (Nat.div_lt_self (Nat.pos_of_ne_zero h) (by norm_num)) d h2

theorem parseDigitsAux_append (xs ys : List Char) (acc : Nat) :
    parseDigitsAux acc (xs ++ ys) =
      match parseDigitsAux acc xs with
      | some a => parseDigitsAux a ys
      | none => none := by
  induction xs generalizing acc with
  | nil => simp [parseDigitsAux]
  | cons c rest ih =>
    simp only [List.cons_append, parseDigitsAux]
    cases charDigit c with
    | none => rfl
    | some d => exact ih _

theorem parseDigitsAux_revDigits (n : Nat) :
    ∀ acc, parseDigitsAux acc ((natRevDigits n).reverse.map digitChar) =
      some (acc * 10 ^ (natRevDigits n).length + n) := by
  induction n using Nat.strong_induction_on with
  | _ n ih =>
    intro acc
    by_cases h : n = 0
    · subst h; simp [natRevDigits_zero, parseDigitsAux]
    · rw [natRevDigits_pos h]
      simp only [List.reverse_cons, List.map_append, List.map_cons, List.map_nil,
        List.length_cons]
      rw [parseDigitsAux_append]
      rw [ih (n / 10) (Nat.div_lt_self (Nat.pos_of_ne_zero h) (by norm_num)) acc]
      simp only [parseDigitsAux, charDigit_digitChar (Nat.mod_lt n (show 0 < 10 by norm_num))]
      congr 1
      have hdm := Nat.div_add_mod n 10
      ring_nf
      omega

theorem parseDigits_eq_aux {l : List Char} (h : l ≠ []) : parseDigits l = parseDigitsAux 0 l := by
  cases l with
  | nil => exact absurd rfl h
  | cons c rest => rfl

theorem parseDigits_pyStrNat (n : Nat) : parseDigits (pyStrNat n).data = some n := by
  by_cases h : n = 0
  · subst h; decide
  · have hne : natRevDigits n ≠ [] := by rw [natRevDigits_pos h]; simp
    have hdata : (pyStrNat n).data = (natRevDigits n).reverse.map digitChar := by
      unfold pyStrNat; rw [if_neg h]
    have hnonempty : (pyStrNat n).data ≠ [] := by
      rw [hdata]
      intro hcon
      apply hne
      have h1 : (natRevDigits n).reverse = [] := List.map_eq_nil_iff.mp hcon
      simpa using congrArg List.reverse h1
    rw [parseDigits_eq_aux hnonempty, hdata, parseDigitsAux_revDigits n 0]
    simp

theorem pyStrNat_head_digit (n : Nat) :
    ∀ c ∈ (pyStrNat n).data, ∃ d, d < 10 ∧ c = digitChar d := by
  intro c hc
  unfold pyStrNat at hc
  by_cases h : n = 0
  · rw [if_pos h] at hc
    refine ⟨0, by norm_num, ?_⟩
    have : c = '0' := by simpa using hc
    subst this; decide
  · rw [if_neg h] at hc
    simp only [String.data] at hc
    rcases List.mem_map.mp (by simpa using hc) with ⟨d, hd, rfl⟩
    exact ⟨d, natRevDigits_lt n d hd, rfl⟩

theorem digitChar_ne_minus {d : Nat} (h : d < 10) : digitChar d ≠ '-' := by
  interval_cases d <;> decide

theorem pyParseInt_cons (c : Char) (rest : List Char) (s : String) (h : s.data = c :: rest) :
    pyParseInt s =
      if c = '-' then (parseDigits rest).map (fun m => -(m : Int))
      else (parseDigits (c :: rest)).map (fun m => (m : Int)) := by
  unfold pyParseInt
  rw [h]

theorem pyParseInt_pyStrInt (i : Int) : pyParseInt (pyStrInt i) = some i := by
  cases i with
  | ofNat m =>
    show pyParseInt (pyStrNat m) = some (m : Int)
    rcases hdat : (pyStrNat m).data with _ | ⟨c, rest⟩
    · exfalso
      have h0 := parseDigits_pyStrNat m
      rw [hdat] at h0
      simp [parseDigits] at h0
    · have hdig : ∃ d, d < 10 ∧ c = digitChar d :=
        pyStrNat_head_digit m c (by rw [hdat]; exact List.mem_cons_self _ _)
      rcases hdig with ⟨d, hd10, rfl⟩
      rw [pyParseInt_cons _ _ _ hdat]
      rw [if_neg (digitChar_ne_minus hd10)]
      have h0 := parseDigits_pyStrNat m
      rw [hdat] at h0
      rw [h0]
      rfl
  | negSucc m =>
    show pyParseInt ("-" ++ pyStrNat (m + 1)) = some (Int.negSucc m)
    have hdat : ("-" ++ pyStrNat (m + 1)).data = '-' :: (pyStrNat (m + 1)).data := by
      simp [String.data_append]
    rw [pyParseInt_cons _ _ _ hdat]
    rw [if_pos rfl]
    rw [parseDigits_pyStrNat (m + 1)]
    simp [Int.negSucc_eq]

/-- A Redis entry: the raw stored bytes (as text) plus an optional TTL. -/
structure REntry where
  val : String
  ttl : Option Nat
deriving DecidableEq, Repr

/-- The Redis database: a map from keys to entries. -/
structure RedisState where
  data : String → Option REntry

/-- The empty database (also the result of `FLUSHDB`). -/
def RedisState.empty : RedisState := ⟨fun _ => none⟩

/-- Redis `GET key`: the raw bytes, or `none` when the key is absent. -/
def Redis.get (st : RedisState) (k : String) : Option String :=
  (st.data k).map REntry.val

/-- Redis `SET key value` (no expiry; clears any previous TTL). -/
def Redis.set (st : RedisState) (k v : String) : RedisState :=
  ⟨fun q => if q = k then some ⟨v, none⟩ else st.data q⟩

/-- Redis `SET key value EX ex`. -/
def Redis.setex (st : RedisState) (k v : String) (ex : Nat) : RedisState :=
  ⟨fun q => if q = k then some ⟨v, some ex⟩ else st.data q⟩

/-- Redis `INCR key`: creates the counter at 1 when the key is absent,
otherwise parses the stored value as an integer and adds one (keeping the
TTL); `none` models the error Redis raises on a non-integer value. -/
def Redis.incr (st : RedisState) (k : String) : Option (RedisState × Int) :=
  match st.data k with
  | none => some (⟨fun q => if q = k then some ⟨"1", none⟩ else st.data q⟩, 1)
  | some e =>
    match pyParseInt e.val with
    | none => none
    | some n =>
      some (⟨fun q => if q = k then some ⟨pyStrInt (n + 1), e.ttl⟩ else st.data q⟩, n + 1)

/-- How redis-py serializes a value passed to `SET`: `str` and `bytes`
pass through (bytes modelled as text), `int` and `float` are printed. -/
def serialize : PyVal → String
  | PyVal.str s => s
  | PyVal.bytes b => b
  | PyVal.int n => pyStrInt n
  | PyVal.float r => r

/-- `Cache.__init__`: connect and `flushdb` — every key is dropped. -/
def Cache.init (_st : RedisState) : RedisState := RedisState.empty

/-- The `count_calls` wrapper body up to (not including) the wrapped
method call: `self._redis.incr(method.__qualname__)` for `store`. -/
def Cache.countPhase (st : RedisState) : Option RedisState :=
  (Redis.incr st "Cache.store").map Prod.fst

/-- The body of the undecorated `Cache.store`: write the value under the
freshly generated uuid key and return that key. -/
def Cache.writePhase (st : RedisState) (genKey : String) (data : PyVal) :
    RedisState × String :=
  (Redis.set st genKey (serialize data), genKey)

/-- The decorated `Cache.store`: `incr("Cache.store")`, then set the value
under the fresh uuid key `genKey` and return the key.  `none` models a
propagated store-layer exception (unparseable counter). -/
def Cache.store (st : RedisState) (genKey : String) (data : PyVal) :
    Option (RedisState × String) :=
  match Redis.incr st "Cache.store" with
  | none => none
  | some (st1, _) => some (Redis.set st1 genKey (serialize data), genKey)

/-- `Cache.get`: look up `key`; on `None` return `None`; otherwise apply
the decoder `fn` when given, else return the raw bytes.  The decoder may
itself raise (`Except.error ()`), which propagates. -/
def Cache.get (st : RedisState) (key : String)
    (fn : Option (String → Except Unit PyVal)) : Except Unit (Option PyVal) :=
  match Redis.get st key with
  | none => Except.ok none
  | some v =>
    match fn with
    | some f => (f v).map some
    | none => Except.ok (some (PyVal.bytes v))

/-- `Cache.get_str`: `get` with the decoder `lambda d: d.decode('utf-8')`
(identity on our text-modelled bytes). -/
def Cache.get_str (st : RedisState) (key : String) : Except Unit (Option PyVal) :=
  Cache.get st key (some fun d => Except.ok (PyVal.str d))

/-- `Cache.get_int`: `get` with the decoder `lambda d: int(d)`; the
decoder raises on a non-integer string. -/
def Cache.get_int (st : RedisState) (key : String) : Except Unit (Option PyVal) :=
  Cache.get st key (some fun d =>
    match pyParseInt d with
    | some n => Except.ok (PyVal.int n)
    | none => Except.error ())

/-- The integer value of a counter key: 0 when absent (the value `INCR`
counts up from), the parsed value otherwise. -/
def keyCount (st : RedisState) (k : String) : Option Int :=
  match Redis.get st k with
  | none => some 0
  | some v => pyParseInt v

/-- The `store` call counter, kept under the qualified name of `store`. -/
def Cache.counterVal (st : RedisState) : Option Int :=
  keyCount st "Cache.store"

/-- A sequence of `store` calls, each with its generated uuid key and its
data argument. -/
def Cache.storeSeq (st : RedisState) : List (String × PyVal) → Option RedisState
  | [] => some st
  | (k, v) :: rest =>
    match Cache.store st k v with
    | none => none
    | some (st1, _) => Cache.storeSeq st1 rest

/-- `get_page` from `web.py`, as wrapped by `url_access_count`.  The cache
hit test is Python truthiness of the bytes (`if cached_value:`), so an
empty cached value falls through to the miss path.  On a miss the fetch
runs first (an exception is converted to an error string), then the
per-URL counter is incremented and the text cached with `ex=10`. -/
def get_page (st : RedisState) (url : String) (fetch : Except String String) :
    Option (RedisState × String) :=
  let key := "cached:" ++ url
  let onMiss : Option (RedisState × String) :=
    match fetch with
    | Except.error e => some (st, "Error fetching page: " ++ e)
    | Except.ok html =>
      match Redis.incr st ("count:" ++ url) with
      | none => none
      | some (st1, _) => some (Redis.setex st1 key html 10, html)
  match Redis.get st key with
  | some cv => if cv = "" then onMiss else some (st, cv)
  | none => onMiss

theorem Redis.get_set_self (st : RedisState) (k v : String) :
    Redis.get (Redis.set st k v) k = some v := by
  simp [Redis.get, Redis.set]

theorem Redis.data_set_ne (st : RedisState) (k v q : String) (h : q ≠ k) :
    (Redis.set st k v).data q = st.data q := by
  simp [Redis.set, h]

theorem Redis.data_setex_self (st : RedisState) (k v : String) (ex : Nat) :
    (Redis.setex st k v ex).data k = some ⟨v, some ex⟩ := by
  simp [Redis.setex]

theorem Redis.data_setex_ne (st : RedisState) (k v : String) (ex : Nat) (q : String)
    (h : q ≠ k) : (Redis.setex st k v ex).data q = st.data q := by
  simp [Redis.setex, h]

theorem Redis.incr_absent (st : RedisState) (k : String) (h : st.data k = none) :
    Redis.incr st k =
      some (⟨fun q => if q = k then some ⟨"1", none⟩ else st.data q⟩, 1) := by
  simp [Redis.incr, h]

theorem Redis.incr_present (st : RedisState) (k : String) (e : REntry) (n : Int)
    (he : st.data k = some e) (hn : pyParseInt e.val = some n) :
    Redis.incr st k =
      some (⟨fun q => if q = k then some ⟨pyStrInt (n + 1), e.ttl⟩ else st.data q⟩, n + 1) := by
  simp [Redis.incr, he, hn]

theorem Redis.incr_err (st : RedisState) (k : String) (e : REntry)
    (he : st.data k = some e) (hn : pyParseInt e.val = none) :
    Redis.incr st k = none := by
  simp [Redis.incr, he, hn]

theorem Redis.incr_isSome (st : RedisState) (k : String) (c : Int)
    (h : keyCount st k = some c) : ∃ p, Redis.incr st k = some p := by
  unfold keyCount Redis.get at h
  cases hd : st.data k with
  | none => exact ⟨_, Redis.incr_absent st k hd⟩
  | some e =>
    rw [hd] at h
    simp only [Option.map_some'] at h
    exact ⟨_, Redis.incr_present st k e c hd h⟩

theorem Redis.incr_keyCount (st : RedisState) (k : String) (c : Int)
    (h : keyCount st k = some c) :
    (Redis.incr st k).map (fun p => keyCount p.1 k) = some (some (c + 1)) := by
  unfold keyCount Redis.get at h
  cases hd : st.data k with
  | none =>
    rw [hd] at h
    simp only [Option.map_none'] at h
    have hc : c = 0 := (Option.some.inj h).symm
    subst hc
    rw [Redis.incr_absent st k hd]
    simp only [Option.map_some']
    have h1 : keyCount ⟨fun q => if q = k then some ⟨"1", none⟩ else st.data q⟩ k = some 1 := by
      have hdk : (⟨fun q => if q = k then some ⟨"1", none⟩ else st.data q⟩ : RedisState).data k =
          some ⟨"1", none⟩ := by simp
      unfold keyCount Redis.get
      rw [hdk]
      decide
    rw [h1]
    norm_num
  | some e =>
    rw [hd] at h
    simp only [Option.map_some'] at h
    rw [Redis.incr_present st k e c hd h]
    simp only [Option.map_some']
    have h1 : keyCount ⟨fun q => if q = k then some ⟨pyStrInt (c + 1), e.ttl⟩ else st.data q⟩ k =
        some (c + 1) := by
      have hdk : (⟨fun q => if q = k then some ⟨pyStrInt (c + 1), e.ttl⟩ else st.data q⟩ :
          RedisState).data k = some ⟨pyStrInt (c + 1), e.ttl⟩ := by simp
      unfold keyCount Redis.get
      rw [hdk]
      exact pyParseInt_pyStrInt (c + 1)
    rw [h1]

theorem Redis.incr_data_ne (st : RedisState) (k : String) (p : RedisState × Int)
    (hp : Redis.incr st k = some p) (q : String) (hq : q ≠ k) :
    p.1.data q = st.data q := by
  cases hd : st.data k with
  | none =>
    rw [Redis.incr_absent st k hd] at hp
    injection hp with hp2
    subst hp2
    simp [hq]
  | some e =>
    cases hn : pyParseInt e.val with
    | none =>
      rw [Redis.incr_err st k e hd hn] at hp
      cases hp
    | some n =>
      rw [Redis.incr_present st k e n hd hn] at hp
      injection hp with hp2
      subst hp2
      simp [hq]

theorem count_ne_cached (url : String) : ("count:" ++ url) ≠ ("cached:" ++ url) := by
  intro h
  have h2 := congrArg String.length h
  rw [String.length_append, String.length_append] at h2
  have h6 : ("count:").length = 6 := rfl
  have h7 : ("cached:").length = 7 := rfl
  omega

/-- C1 (amended): for every URL whose cache key `"cached:" + url` is
present in the store *with a non-empty (truthy) value*, `get_page url`
returns the cached value decoded as text, leaves the store unchanged (so
the per-URL access counter is not incremented), and its result does not
depend on the fetch: no HTTP request is observable. -/
theorem get_page_cache_hit (st : RedisState) (url cv : String)
    (hcv : Redis.get st ("cached:" ++ url) = some cv) (hne : cv ≠ "")
    (fetch : Except String String) :
    get_page st url fetch = some (st, cv) := by
  unfold get_page
  dsimp only
  rw [hcv]
  simp [hne]

/-- Witness for C1's theorem: a store holding `"hello"` under
`"cached:u"`; the call returns the cached text with the store unchanged,
for an arbitrary fixed fetch outcome. -/
theorem get_page_cache_hit_witness :
    get_page (Redis.set RedisState.empty "cached:u" "hello") "u" (Except.ok "other") =
      some (Redis.set RedisState.empty "cached:u" "hello", "hello") :=
  get_page_cache_hit (Redis.set RedisState.empty "cached:u" "hello") "u" "hello"
    (by decide) (by decide) (Except.ok "other")

/-- C1 counterexample: the cache key `"cached:u"` is present (holding the
empty string), yet `get_page` does not return the cached value: the
truthiness test `if cached_value:` treats it as a miss, so the fetched
text `"x"` is returned and the access counter `"count:u"` is incremented
to 1. -/
theorem get_page_empty_hit_cex :
    Redis.get (Redis.set RedisState.empty "cached:u" "") "cached:u" = some "" ∧
    (get_page (Redis.set RedisState.empty "cached:u" "") "u" (Except.ok "x")).map Prod.snd =
      some "x" ∧
    (get_page (Redis.set RedisState.empty "cached:u" "") "u" (Except.ok "x")).map
      (fun p => Redis.get p.1 "count:u") = some (some "1") ∧
    (get_page (Redis.set RedisState.empty "cached:u" "") "u" (Except.ok "x")).map Prod.snd ≠
      some "" := by
  refine ⟨by decide, by decide, by decide, by decide⟩

/-- C2: when the cache key is absent and the fetch raises, `get_page`
returns the error description string (it does not raise), and the store
is unchanged: no counter increment and no cache write. -/
theorem get_page_fetch_error (st : RedisState) (url e : String)
    (habs : Redis.get st ("cached:" ++ url) = none) :
    get_page st url (Except.error e) = some (st, "Error fetching page: " ++ e) := by
  unfold get_page
  dsimp only
  rw [habs]

/-- Witness for C2's theorem at the empty store with a fetch raising
`"boom"`. -/
theorem get_page_fetch_error_witness :
    get_page RedisState.empty "u" (Except.error "boom") =
      some (RedisState.empty, "Error fetching page: " ++ "boom") :=
  get_page_fetch_error RedisState.empty "u" "boom" (by decide)

/-- C6: when the cache key is absent and the fetch succeeds with `html`,
`get_page` returns `html`, increments the counter `"count:" + url` by
one, and writes `html` under `"cached:" + url` with a TTL of 10. -/
theorem get_page_miss_success (st : RedisState) (url html : String) (c : Int)
    (habs : Redis.get st ("cached:" ++ url) = none)
    (hcount : keyCount st ("count:" ++ url) = some c) :
    (get_page st url (Except.ok html)).map Prod.snd = some html ∧
    (get_page st url (Except.ok html)).map (fun p => keyCount p.1 ("count:" ++ url)) =
      some (some (c + 1)) ∧
    (get_page st url (Except.ok html)).map (fun p => p.1.data ("cached:" ++ url)) =
      some (some ⟨html, some 10⟩) := by
  obtain ⟨p, hp⟩ := Redis.incr_isSome st ("count:" ++ url) c hcount
  have hpage : get_page st url (Except.ok html) =
      some (Redis.setex p.1 ("cached:" ++ url) html 10, html) := by
    unfold get_page
    dsimp only
    rw [habs, hp]
  refine ⟨by rw [hpage]; rfl, ?_, ?_⟩
  · rw [hpage]
    simp only [Option.map_some']
    have hup : keyCount (Redis.setex p.1 ("cached:" ++ url) html 10) ("count:" ++ url) =
        keyCount p.1 ("count:" ++ url) := by
      unfold keyCount Redis.get
      rw [Redis.data_setex_ne p.1 ("cached:" ++ url) html 10 ("count:" ++ url)
        (count_ne_cached url)]
    rw [hup]
    have := Redis.incr_keyCount st ("count:" ++ url) c hcount
    rw [hp] at this
    simpa using this
  · rw [hpage]
    simp only [Option.map_some']
    rw [Redis.data_setex_self]

/-- Witness for C6's theorem: empty store, URL `"u"`, fetched text
`"hello"`, prior counter 0. -/
theorem get_page_miss_success_witness :
    (get_page RedisState.empty "u" (Except.ok "hello")).map Prod.snd = some "hello" ∧
    (get_page RedisState.empty "u" (Except.ok "hello")).map
      (fun p => keyCount p.1 ("count:" ++ "u")) = some (some (0 + 1)) ∧
    (get_page RedisState.empty "u" (Except.ok "hello")).map
      (fun p => p.1.data ("cached:" ++ "u")) = some (some ⟨"hello", some 10⟩) :=
  get_page_miss_success RedisState.empty "u" "hello" 0 (by decide) (by decide)

theorem Cache.get_absent (st : RedisState) (key : String) (h : st.data key = none)
    (fn : Option (String → Except Unit PyVal)) : Cache.get st key fn = Except.ok none := by
  unfold Cache.get Redis.get
  rw [h]
  rfl

theorem Cache.store_eq (st : RedisState) (k : String) (v : PyVal) (p : RedisState × Int)
    (hp : Redis.incr st "Cache.store" = some p) :
    Cache.store st k v = some (Redis.set p.1 k (serialize v), k) := by
  obtain ⟨p1, pn⟩ := p
  unfold Cache.store
  rw [hp]

/-- C3: after a sequence of `store` calls (arbitrary data, fresh uuid keys —
which are 36 characters long, hence never the 11-character counter key
`"Cache.store"`), the call counter under `store`'s qualified name equals
its previous value plus the number of calls. -/
theorem store_seq_counter (ps : List (String × PyVal)) :
    ∀ (st : RedisState) (c : Int), Cache.counterVal st = some c →
    (∀ p ∈ ps, p.1 ≠ "Cache.store") →
    (Cache.storeSeq st ps).map Cache.counterVal = some (some (c + ps.length)) := by
  induction ps with
  | nil =>
    intro st c hc _
    simp [Cache.storeSeq, Cache.counterVal] at hc ⊢
    exact hc
  | cons hd tl ih =>
    intro st c hc hkeys
    obtain ⟨p, hp⟩ := Redis.incr_isSome st "Cache.store" c hc
    have hstore := Cache.store_eq st hd.1 hd.2 p hp
    have hcnt1 : Cache.counterVal p.1 = some (c + 1) := by
      have h2 := Redis.incr_keyCount st "Cache.store" c hc
      rw [hp] at h2
      simpa [Cache.counterVal] using h2
    have hk : hd.1 ≠ "Cache.store" := hkeys hd (List.mem_cons_self _ _)
    have hcnt2 : Cache.counterVal (Redis.set p.1 hd.1 (serialize hd.2)) = some (c + 1) := by
      unfold Cache.counterVal keyCount Redis.get
      rw [Redis.data_set_ne p.1 hd.1 (serialize hd.2) "Cache.store" (Ne.symm hk)]
      unfold Cache.counterVal keyCount Redis.get at hcnt1
      exact hcnt1
    have hseq : Cache.storeSeq st (hd :: tl) =
        Cache.storeSeq (Redis.set p.1 hd.1 (serialize hd.2)) tl := by
      show (match Cache.store st hd.1 hd.2 with
        | none => none
        | some (st1, _) => Cache.storeSeq st1 tl) = _
      rw [hstore]
    rw [hseq]
    rw [ih (Redis.set p.1 hd.1 (serialize hd.2)) (c + 1) hcnt2
      (fun q hq => hkeys q (List.mem_cons_of_mem hd hq))]
    have harith : c + 1 + (tl.length : Int) = c + ((hd :: tl).length : Int) := by
      simp [List.length_cons]
      ring
    rw [harith]

/-- Witness for C3's theorem: two `store` calls from the fresh store take the
counter from 0 to 2. -/
theorem store_seq_counter_witness :
    (Cache.storeSeq RedisState.empty
        [("k1", PyVal.str "a"), ("k2", PyVal.bytes "b")]).map Cache.counterVal =
      some (some (0 + ([("k1", PyVal.str "a"), ("k2", PyVal.bytes "b")].length : Int))) :=
  store_seq_counter [("k1", PyVal.str "a"), ("k2", PyVal.bytes "b")] RedisState.empty 0
    (by decide) (by decide)

/-- C4 (amended): storing `v` and retrieving the returned key with no
decoder yields the raw byte serialization of `v`, not `v` itself; the
round-trip is the identity exactly for binary (`bytes`) values. -/
theorem store_get_roundtrip (st : RedisState) (k : String) (v : PyVal) (c : Int)
    (hc : Cache.counterVal st = some c) :
    ((Cache.store st k v).map (fun p => Cache.get p.1 p.2 none) =
      some (Except.ok (some (PyVal.bytes (serialize v))))) ∧
    (∀ b, v = PyVal.bytes b →
      (Cache.store st k v).map (fun p => Cache.get p.1 p.2 none) =
        some (Except.ok (some v))) := by
  obtain ⟨p, hp⟩ := Redis.incr_isSome st "Cache.store" c hc
  have hstore := Cache.store_eq st k v p hp
  have hmain : (Cache.store st k v).map (fun p => Cache.get p.1 p.2 none) =
      some (Except.ok (some (PyVal.bytes (serialize v)))) := by
    rw [hstore]
    simp only [Option.map_some']
    unfold Cache.get
    rw [Redis.get_set_self]
  refine ⟨hmain, fun b hb => ?_⟩
  subst hb
  exact hmain

/-- Witness for C4's amended theorem at a concrete text value. -/
theorem store_get_roundtrip_witness :
    ((Cache.store RedisState.empty "k" (PyVal.str "a")).map
        (fun p => Cache.get p.1 p.2 none) =
      some (Except.ok (some (PyVal.bytes (serialize (PyVal.str "a")))))) ∧
    (∀ b, PyVal.str "a" = PyVal.bytes b →
      (Cache.store RedisState.empty "k" (PyVal.str "a")).map
          (fun p => Cache.get p.1 p.2 none) =
        some (Except.ok (some (PyVal.str "a")))) :=
  store_get_roundtrip RedisState.empty "k" (PyVal.str "a") 0 (by decide)

/-- C4 counterexample: storing the text value `"a"` and retrieving it with
no decoder returns the bytes value `b"a"`, which is not the stored value
`"a"` (in Python, `b"a" == "a"` is false) — the round-trip identity fails
for a supported non-bytes scalar. -/
theorem store_get_roundtrip_cex :
    (Cache.store RedisState.empty "k" (PyVal.str "a")).map
        (fun p => Cache.get p.1 p.2 none) =
      some (Except.ok (some (PyVal.bytes "a"))) ∧
    (Cache.store RedisState.empty "k" (PyVal.str "a")).map
        (fun p => Cache.get p.1 p.2 none) ≠
      some (Except.ok (some (PyVal.str "a"))) := by
  refine ⟨by decide, by decide⟩

/-- C5 (amended): from a fresh store, after any sequence of `store` calls,
retrieving a key that no `store` call returned — and that is not the call
counter key `"Cache.store"`, which shares the namespace — yields the
absent sentinel. -/
theorem get_unstored_absent (ps : List (String × PyVal)) (key : String)
    (hnot : key ∉ ps.map Prod.fst) (hcnt : key ≠ "Cache.store") :
    (Cache.storeSeq RedisState.empty ps).map (fun st => Cache.get st key none) =
      (Cache.storeSeq RedisState.empty ps).map (fun _ => Except.ok none) := by
  have main : ∀ (ps : List (String × PyVal)) (st : RedisState),
      st.data key = none → key ∉ ps.map Prod.fst →
      (Cache.storeSeq st ps).map (fun st' => Cache.get st' key none) =
        (Cache.storeSeq st ps).map (fun _ => Except.ok none) := by
    intro ps
    induction ps with
    | nil =>
      intro st habs _
      simp [Cache.storeSeq]
      exact Cache.get_absent st key habs none
    | cons hd tl ih =>
      intro st habs hnot'
      have hkey_ne : key ≠ hd.1 := by
        intro hcon
        exact hnot' (by rw [hcon]; exact List.mem_map_of_mem Prod.fst (List.mem_cons_self _ _))
      cases hp : Redis.incr st "Cache.store" with
      | none =>
        have hnone : Cache.store st hd.1 hd.2 = none := by
          unfold Cache.store
          rw [hp]
        have hseq : Cache.storeSeq st (hd :: tl) = none := by
          show (match Cache.store st hd.1 hd.2 with
            | none => none
            | some (st1, _) => Cache.storeSeq st1 tl) = _
          rw [hnone]
        rw [hseq]
        rfl
      | some p =>
        have hstore := Cache.store_eq st hd.1 hd.2 p hp
        have hseq : Cache.storeSeq st (hd :: tl) =
            Cache.storeSeq (Redis.set p.1 hd.1 (serialize hd.2)) tl := by
          show (match Cache.store st hd.1 hd.2 with
            | none => none
            | some (st1, _) => Cache.storeSeq st1 tl) = _
          rw [hstore]
        rw [hseq]
        have habs2 : (Redis.set p.1 hd.1 (serialize hd.2)).data key = none := by
          rw [Redis.data_set_ne p.1 hd.1 (serialize hd.2) key hkey_ne]
          rw [Redis.incr_data_ne st "Cache.store" p hp key hcnt]
          exact habs
        exact ih (Redis.set p.1 hd.1 (serialize hd.2)) habs2
          (fun hm => hnot' (List.mem_cons_of_mem _ hm))
  exact main ps RedisState.empty rfl hnot

/-- Witness for C5's amended theorem: one stored record under `"k"`;
retrieving the unrelated key `"other"` yields absent. -/
theorem get_unstored_absent_witness :
    (Cache.storeSeq RedisState.empty [("k", PyVal.str "v")]).map
        (fun st => Cache.get st "other" none) =
      (Cache.storeSeq RedisState.empty [("k", PyVal.str "v")]).map
        (fun _ => Except.ok none) :=
  get_unstored_absent [("k", PyVal.str "v")] "other" (by decide) (by decide)

/-- C5 counterexample: after one `store` call the counter key
`"Cache.store"` — which no `store` call ever returned — is present, and
retrieving it yields the counter bytes `b"1"`, not the absent sentinel. -/
theorem get_unstored_absent_cex :
    (Cache.storeSeq RedisState.empty [("k", PyVal.str "v")]).isSome = true ∧
    "Cache.store" ∉ [("k", PyVal.str "v")].map Prod.fst ∧
    (Cache.storeSeq RedisState.empty [("k", PyVal.str "v")]).map
        (fun st => Cache.get st "Cache.store" none) =
      some (Except.ok (some (PyVal.bytes "1"))) := by
  refine ⟨rfl, by decide, by decide⟩

/-- C7: storing the base-10 text of an integer `n` and calling `get_int`
on the returned key yields `n`. -/
theorem store_get_int_roundtrip (st : RedisState) (k : String) (n : Int) (c : Int)
    (hc : Cache.counterVal st = some c) :
    (Cache.store st k (PyVal.bytes (pyStrInt n))).map (fun p => Cache.get_int p.1 p.2) =
      some (Except.ok (some (PyVal.int n))) := by
  obtain ⟨p, hp⟩ := Redis.incr_isSome st "Cache.store" c hc
  rw [Cache.store_eq st k (PyVal.bytes (pyStrInt n)) p hp]
  simp only [Option.map_some']
  unfold Cache.get_int Cache.get
  rw [Redis.get_set_self]
  refine congrArg some ?_
  show Except.map some (match pyParseInt (pyStrInt n) with
    | some m => Except.ok (PyVal.int m)
    | none => Except.error ()) = Except.ok (some (PyVal.int n))
  rw [pyParseInt_pyStrInt n]
  rfl

/-- Witness for C7's theorem at `n = 42` from the fresh store. -/
theorem store_get_int_roundtrip_witness :
    (Cache.store RedisState.empty "k" (PyVal.bytes (pyStrInt 42))).map
        (fun p => Cache.get_int p.1 p.2) =
      some (Except.ok (some (PyVal.int 42))) :=
  store_get_int_roundtrip RedisState.empty "k" 42 0 (by decide)

/-- C8: `initialize` flushes the database, so retrieving any previously
present (stored) key afterwards yields the absent sentinel, whatever
decoder is used. -/
theorem init_clears (st : RedisState) (key v : String)
    (_hstored : Redis.get st key = some v) (fn : Option (String → Except Unit PyVal)) :
    Cache.get (Cache.init st) key fn = Except.ok none := by
  exact Cache.get_absent (Cache.init st) key rfl fn

/-- Witness for C8's theorem: `"k"` is stored, then `initialize` runs and
`"k"` retrieves as absent. -/
theorem init_clears_witness :
    Cache.get (Cache.init (Redis.set RedisState.empty "k" "v")) "k" none =
      Except.ok none :=
  init_clears (Redis.set RedisState.empty "k" "v") "k" "v" (by decide) none

/-- C9: on an absent key, `get` returns the absent sentinel for every
decoder `f` — the result does not depend on `f`, so the decoder is never
invoked — and in particular `get_str` and `get_int` return absent rather
than failing inside their decoders. -/
theorem get_missing_skips_decoder (st : RedisState) (key : String)
    (f : String → Except Unit PyVal) (h : st.data key = none) :
    Cache.get st key (some f) = Except.ok none ∧
    Cache.get_str st key = Except.ok none ∧
    Cache.get_int st key = Except.ok none :=
  ⟨Cache.get_absent st key h (some f),
   Cache.get_absent st key h _,
   Cache.get_absent st key h _⟩

/-- Witness for C9's theorem at the empty store with a concrete decoder. -/
theorem get_missing_skips_decoder_witness :
    Cache.get RedisState.empty "k" (some fun d => Except.ok (PyVal.str d)) =
      Except.ok none ∧
    Cache.get_str RedisState.empty "k" = Except.ok none ∧
    Cache.get_int RedisState.empty "k" = Except.ok none :=
  get_missing_skips_decoder RedisState.empty "k" (fun d => Except.ok (PyVal.str d)) rfl

/-- C10: `store` factors as the counter increment (`countPhase`) followed
by the value write (`writePhase`); the increment alone already raises the
call counter by one and writes no data key.  Hence if the underlying
write then fails, the observable state has the counter incremented with
no completed store, so the counter can exceed the number of successful
stores. -/
theorem store_counts_before_write (st : RedisState) (k : String) (v : PyVal)
    (c : Int) (q : String) (hq : q ≠ "Cache.store")
    (hc : Cache.counterVal st = some c) :
    (Cache.store st k v = (Cache.countPhase st).map (fun st1 => Cache.writePhase st1 k v)) ∧
    ((Cache.countPhase st).map Cache.counterVal = some (some (c + 1))) ∧
    ((Cache.countPhase st).map (fun st1 => st1.data q) = some (st.data q)) := by
  obtain ⟨p, hp⟩ := Redis.incr_isSome st "Cache.store" c hc
  refine ⟨?_, ?_, ?_⟩
  · rw [Cache.store_eq st k v p hp]
    unfold Cache.countPhase Cache.writePhase
    rw [hp]
    rfl
  · unfold Cache.countPhase Cache.counterVal
    rw [Option.map_map]
    exact Redis.incr_keyCount st "Cache.store" c hc
  · unfold Cache.countPhase
    rw [hp]
    simp only [Option.map_some', Option.some.injEq]
    exact Redis.incr_data_ne st "Cache.store" p hp q hq

/-- Witness for C10's theorem from the fresh store. -/
theorem store_counts_before_write_witness :
    (Cache.store RedisState.empty "k" (PyVal.str "v") =
      (Cache.countPhase RedisState.empty).map
        (fun st1 => Cache.writePhase st1 "k" (PyVal.str "v"))) ∧
    ((Cache.countPhase RedisState.empty).map Cache.counterVal = some (some (0 + 1))) ∧
    ((Cache.countPhase RedisState.empty).map (fun st1 => st1.data "other") =
      some (RedisState.empty.data "other")) :=
  store_counts_before_write RedisState.empty "k" (PyVal.str "v") 0 "other"
    (by decide) (by decide)

end AlxStorage
